import Mathlib

/-!
Verification development for the Minimax-Speech-Synthesis repository.

Shallow embedding of:
- the hex decoder and response handling of src/services/minimax.ts,
- the CSV row validation of the csv helper,
- the batch scheduler processBatch of the App component,
together with proofs of the specified properties.

JavaScript numeric/string builtins used by the source (parseInt with
radix 16, ToUint8 coercion on typed-array element write, out-of-bounds
typed-array writes being ignored, truthiness of strings) are modelled
explicitly below, following the ECMAScript semantics.
-/

namespace MinimaxSpeech

/-- ECMAScript StrWhiteSpace characters skipped by parseInt
(space, tab, LF, CR, VT, FF, NBSP, BOM). -/
def jsIsStrWhiteSpace (c : Char) : Bool :=
  c = ' ' || c = '\t' || c = '\n' || c = '\r' || c.toNat = 11 || c.toNat = 12 ||
  c.toNat = 160 || c.toNat = 65279

/-- Value of a single hexadecimal digit character, as recognised by
JavaScript parseInt with radix 16. -/
def jsHexDigitVal (c : Char) : Option Nat :=
  let n := c.toNat
  if 48 ≤ n ∧ n ≤ 57 then some (n - 48)
  else if 97 ≤ n ∧ n ≤ 102 then some (n - 87)
  else if 65 ≤ n ∧ n ≤ 70 then some (n - 55)
  else none

/-- Longest prefix of hex digits, as digit values. -/
def takeHexDigits : List Char → List Nat
  | [] => []
  | c :: rest =>
    match jsHexDigitVal c with
    | some d => d :: takeHexDigits rest
    | none => []

/-- Value of a big-endian base-16 digit list. -/
def hexDigitsToNat (ds : List Nat) : Nat :=
  ds.foldl (fun a d => 16 * a + d) 0

/-- JavaScript parseInt(s, 16): skip leading whitespace, optional sign,
optional 0x/0X prefix, then the longest hex-digit prefix; none models NaN
(no digits found). -/
def jsParseIntHex (s : List Char) : Option Int :=
  let s1 := s.dropWhile jsIsStrWhiteSpace
  let neg : Bool := s1.head? == some '-'
  let s2 := if s1.head? == some '-' || s1.head? == some '+' then s1.tail else s1
  let s3 :=
    if s2.head? == some '0' && (s2.tail.head? == some 'x' || s2.tail.head? == some 'X')
    then s2.tail.tail else s2
  let ds := takeHexDigits s3
  if ds.isEmpty then none
  else if neg then some (-(hexDigitsToNat ds : Int)) else some (hexDigitsToNat ds)

/-- ECMAScript ToUint8, applied on writing into a Uint8Array:
NaN becomes 0, an integer is taken modulo 2^8 into the range 0..255. -/
def jsToUint8 : Option Int → Nat
  | none => 0
  | some m => (m % 256).toNat

/-- The loop of hexToBytes in src/services/minimax.ts: at step i (here the
remaining character list, with k = i / 2) the source writes
parseInt(hex.substring(i, i + 2), 16) into index i / 2 of the Uint8Array.
A write past the end of the typed array is silently ignored, which
List.set also does. -/
def hexToBytesLoop (arr : List Nat) (k : Nat) : List Char → List Nat
  | [] => arr
  | [c] => arr.set k (jsToUint8 (jsParseIntHex [c]))
  | c1 :: c2 :: rest =>
    hexToBytesLoop (arr.set k (jsToUint8 (jsParseIntHex [c1, c2]))) (k + 1) rest

/-- hexToBytes from src/services/minimax.ts: allocates a Uint8Array of
length hex.length / 2 (ToIndex truncates the fractional part for an
odd-length input) and runs the write loop over 2-character substrings. -/
def hexToBytes (hex : String) : List Nat :=
  hexToBytesLoop (List.replicate (hex.length / 2) 0) 0 hex.data

/-- Characterisation of the decoder output: one byte per contiguous
2-character chunk, a trailing lone character dropped (its write lands past
the end of the allocated array). -/
def hexPairs : List Char → List Nat
  | c1 :: c2 :: rest => jsToUint8 (jsParseIntHex [c1, c2]) :: hexPairs rest
  | _ => []

/-- Spec-side encoder for the round-trip property: each byte as two
lowercase hexadecimal digits. -/
def encodeHexChars : List Nat → List Char
  | [] => []
  | b :: rest => Nat.digitChar (b / 16) :: Nat.digitChar (b % 16) :: encodeHexChars rest

/-- Spec-side encoder packaged as a string. -/
def encodeHex (bs : List Nat) : String :=
  ⟨encodeHexChars bs⟩

/-! ## Response handling of generateSpeech (src/services/minimax.ts) -/

/-- base_resp of the MinimaxResponse interface. -/
structure BaseResp where
  status_code : Int
  status_msg : String
deriving DecidableEq

/-- data of the MinimaxResponse interface. The source reads data.audio and
data.audio_file through optional chaining and JavaScript truthiness, so an
absent audio field behaves exactly like the empty string. -/
structure RespData where
  audio : String
  audio_file : Option String
  status : Int
deriving DecidableEq

/-- MinimaxResponse interface from the types module. -/
structure MinimaxResponse where
  base_resp : BaseResp
  data : Option RespData
deriving DecidableEq

/-- The transport-level response observed by generateSpeech: ok flag,
HTTP status and statusText, and the parsed JSON body. -/
structure TransportResponse where
  ok : Bool
  status : Nat
  statusText : String
  json : MinimaxResponse
deriving DecidableEq

/-- Outcome of the response handling in generateSpeech. The three error
constructors are the thrown errors (transport failure, embedded service
failure, missing audio); the two audio constructors are the returned
resource: inline hex-decoded bytes, or an instruction to fetch the remote
URL and wrap its bytes. -/
inductive SpeechOutcome where
  | transportError (status : Nat) (statusText : String)
  | serviceError (msg : String)
  | noAudioData
  | inlineAudio (bytes : List Nat)
  | remoteAudio (url : String)
deriving DecidableEq

/-- Response handling of generateSpeech, translated clause by clause:
if (!response.ok) throw the API error; if base_resp.status_code is not 0
throw the Minimax error with status_msg; if data?.audio is truthy decode
it with hexToBytes into an audio/mp3 blob; else if data?.audio_file is
truthy fetch that URL; else throw the no-audio-data error. -/
def generateSpeechOutcome (r : TransportResponse) : SpeechOutcome :=
  if r.ok = false then .transportError r.status r.statusText
  else if r.json.base_resp.status_code ≠ 0 then .serviceError r.json.base_resp.status_msg
  else
    match r.json.data with
    | some d =>
      if d.audio ≠ "" then .inlineAudio (hexToBytes d.audio)
      else
        match d.audio_file with
        | some u => if u ≠ "" then .remoteAudio u else .noAudioData
        | none => .noAudioData
    | none => .noAudioData

/-- Truthiness of the inline audio field data?.audio. -/
def audioPresent (r : TransportResponse) : Bool :=
  match r.json.data with
  | some d => d.audio ≠ ""
  | none => false

/-- Truthiness of the remote URL field data?.audio_file. -/
def audioFilePresent (r : TransportResponse) : Bool :=
  match r.json.data with
  | some d =>
    match d.audio_file with
    | some u => u ≠ ""
    | none => false
  | none => false

/-! ## Row ingestion (parseCSV of the csv helper) -/

/-- A raw parsed record: each expected column either absent or a string. -/
structure RawRow where
  shotNumber : Option String
  character : Option String
  voice_id : Option String
  text : Option String
  emotion : Option String
deriving DecidableEq

/-- A record after the map step of parseCSV: every field trimmed, fields
of absent columns remaining undefined. -/
structure CleanRow where
  shotNumber : Option String
  character : Option String
  voice_id : Option String
  text : Option String
  emotion : Option String
deriving DecidableEq

/-- JavaScript String.prototype.trim: strip leading and trailing
WhiteSpace and LineTerminator characters. -/
def jsTrim (s : String) : String :=
  ⟨((s.data.dropWhile jsIsStrWhiteSpace).reverse.dropWhile jsIsStrWhiteSpace).reverse⟩

/-- The map step of parseCSV: trim each field through optional chaining. -/
def mapRow (r : RawRow) : CleanRow :=
  { shotNumber := r.shotNumber.map jsTrim
    character := r.character.map jsTrim
    voice_id := r.voice_id.map jsTrim
    text := r.text.map jsTrim
    emotion := r.emotion.map jsTrim }

/-- JavaScript truthiness of a possibly-undefined string: undefined and
the empty string are falsy. -/
def truthyStr : Option String → Bool
  | some s => s ≠ ""
  | none => false

/-- The filter predicate of parseCSV: row.text && row.voice_id && row.Character. -/
def acceptRow (r : CleanRow) : Bool :=
  truthyStr r.text && truthyStr r.voice_id && truthyStr r.character

/-- parseCSV validation core: map each record to its trimmed form, then
keep exactly the records whose text, voice_id and Character are truthy. -/
def parseCSVRows (rows : List RawRow) : List CleanRow :=
  (rows.map mapRow).filter acceptRow

/-! ## Work items and the batch scheduler (App component) -/

/-- ProcessingItem status values: idle (pending), loading (in flight),
success (succeeded), error (failed). -/
inductive Status where
  | idle
  | loading
  | success
  | error
deriving DecidableEq

/-- ScriptRow as produced for accepted rows. -/
structure ScriptRow where
  shotNumber : String
  character : String
  voice_id : String
  text : String
  emotion : Option String
deriving DecidableEq

/-- ProcessingItem from the types module. -/
structure ProcessingItem where
  id : String
  row : ScriptRow
  status : Status
  audioUrl : Option String := none
  errorMessage : Option String := none
deriving DecidableEq

/-- The browser object-URL registry: URL.createObjectURL registers a fresh
blob URL as live, URL.revokeObjectURL releases it. Underlying blob storage
of a created URL is reclaimed only by an explicit revoke. -/
structure URLRegistry where
  nextId : Nat
  live : List String
deriving DecidableEq

/-- URL.createObjectURL: mint a fresh blob URL and add it to the live set. -/
def createObjectURL (reg : URLRegistry) : String × URLRegistry :=
  let u := "blob:" ++ Nat.repr reg.nextId
  (u, { nextId := reg.nextId + 1, live := reg.live ++ [u] })

/-- URL.revokeObjectURL: release one live URL. -/
def revokeObjectURL (reg : URLRegistry) (u : String) : URLRegistry :=
  { reg with live := reg.live.filter (fun v => v ≠ u) }

/-- downloadBlob of the csv helper: creates an object URL for the download
anchor and revokes it immediately after the click. -/
def downloadBlob (reg : URLRegistry) : URLRegistry :=
  let p := createObjectURL reg
  revokeObjectURL p.2 p.1

/-- One setItems update of processBatch: replace every item with the given
id by its updated copy, leave all others untouched. -/
def applyIf (id : String) (f : ProcessingItem → ProcessingItem)
    (items : List ProcessingItem) : List ProcessingItem :=
  items.map fun i => if i.id = id then f i else i

/-- The loading update: status loading, errorMessage cleared. -/
def updLoading (id : String) (items : List ProcessingItem) : List ProcessingItem :=
  applyIf id (fun i => { i with status := Status.loading, errorMessage := none }) items

/-- The success update: status success, audioUrl attached (errorMessage
is spread through unchanged, as in the source). -/
def updSuccess (id : String) (url : String) (items : List ProcessingItem) :
    List ProcessingItem :=
  applyIf id (fun i => { i with status := Status.success, audioUrl := some url }) items

/-- The failure update: status error, errorMessage attached (audioUrl is
spread through unchanged, as in the source). -/
def updError (id : String) (msg : String) (items : List ProcessingItem) :
    List ProcessingItem :=
  applyIf id (fun i => { i with status := Status.error, errorMessage := some msg }) items

/-- The synthesis adapter as seen by the scheduler: for a row it either
returns blob bytes or throws an error message. -/
def SynthAdapter : Type :=
  ScriptRow → Except String (List Nat)

/-- Result of the sequential processing loop. -/
structure ProcResult where
  items : List ProcessingItem
  registry : URLRegistry
  trace : List String
deriving DecidableEq

/-- The for-loop of processBatch over the selected pending items: set the
item loading, invoke the adapter on its row, then set it success with a
fresh object URL or error with the caught message, and continue with the
next selected item. The trace records the ids in processing order. -/
def processItems (synth : SynthAdapter) :
    List ProcessingItem → List ProcessingItem → URLRegistry → ProcResult
  | [], items, reg => { items := items, registry := reg, trace := [] }
  | item :: rest, items, reg =>
    let items1 := updLoading item.id items
    match synth item.row with
    | .ok _ =>
      let p := createObjectURL reg
      let out := processItems synth rest (updSuccess item.id p.1 items1) p.2
      { out with trace := item.id :: out.trace }
    | .error msg =>
      let out := processItems synth rest (updError item.id msg items1) reg
      { out with trace := item.id :: out.trace }

/-- The selection of processBatch: items whose status is idle or error. -/
def selectedItems (items : List ProcessingItem) : List ProcessingItem :=
  items.filter fun i => i.status = Status.idle || i.status = Status.error

/-- Progress state of the App component. -/
structure Progress where
  current : Nat
  total : Nat
deriving DecidableEq

/-- Full result of one processBatch invocation. -/
structure BatchResult where
  items : List ProcessingItem
  registry : URLRegistry
  progress : Progress
  trace : List String
  batchError : Option String
deriving DecidableEq

/-- processBatch of the App component: guard on missing credentials, select
the idle and error items, process them strictly sequentially in original
order, count each processed item in the progress. The function is total:
every adapter failure is consumed by the catch block of the loop body, so
no exception ever reaches the caller. -/
def processBatch (apiKey groupId : String) (synth : SynthAdapter)
    (items : List ProcessingItem) (reg : URLRegistry) (prog : Progress) : BatchResult :=
  if apiKey = "" ∨ groupId = "" then
    { items := items, registry := reg, progress := prog, trace := []
      batchError := some "Please provide API Key and Group ID." }
  else
    let pending := selectedItems items
    let r := processItems synth pending items reg
    { items := r.items, registry := r.registry
      progress := { current := r.trace.length, total := pending.length }
      trace := r.trace, batchError := none }

/-- Aggregate stats of the App component. -/
structure Stats where
  total : Nat
  success : Nat
  error : Nat
  pending : Nat
deriving DecidableEq

/-- The stats computation: counts of success and error items, the rest
reported as pending. -/
def stats (items : List ProcessingItem) : Stats :=
  let total := items.length
  let success := (items.filter fun i => i.status = Status.success).length
  let error := (items.filter fun i => i.status = Status.error).length
  { total := total, success := success, error := error
    pending := total - success - error }

/-- App-level state relevant to resource handling: the item list and the
object-URL registry of the browser session. -/
structure AppState where
  items : List ProcessingItem
  registry : URLRegistry
deriving DecidableEq

/-- The Clear button of the App component: setItems of the empty list. It
performs no revocation of object URLs. -/
def clearBatch (st : AppState) : AppState :=
  { items := [], registry := st.registry }

/-! ## Helper lemmas about the scheduler loop -/

theorem applyIf_map_field {β : Type} (g : ProcessingItem → β) (id0 : String)
    (f : ProcessingItem → ProcessingItem) (l : List ProcessingItem)
    (hf : ∀ x, g (f x) = g x) :
    (applyIf id0 f l).map g = l.map g := by
  unfold applyIf
  rw [List.map_map]
  refine List.map_congr_left ?_
  intro x _
  by_cases h : x.id = id0 <;> simp [Function.comp, h, hf]

theorem mem_applyIf_of_ne {x : ProcessingItem} {id0 : String}
    {f : ProcessingItem → ProcessingItem} {l : List ProcessingItem}
    (hx : x ∈ l) (hne : x.id ≠ id0) :
    x ∈ applyIf id0 f l := by
  unfold applyIf
  refine List.mem_map.mpr ⟨x, hx, ?_⟩
  simp [hne]

theorem mem_applyIf_ne {y : ProcessingItem} {id0 : String}
    {f : ProcessingItem → ProcessingItem} {l : List ProcessingItem}
    (hy : y ∈ applyIf id0 f l) (hne : y.id ≠ id0) (hf : ∀ x, (f x).id = x.id) :
    y ∈ l := by
  unfold applyIf at hy
  rcases List.mem_map.mp hy with ⟨x, hx, hxy⟩
  by_cases h : x.id = id0
  · exfalso
    apply hne
    rw [← hxy]
    simp [h, hf]
  · rw [← hxy]
    simpa [h] using hx

theorem mem_applyIf_elim {y : ProcessingItem} {id0 : String}
    {f : ProcessingItem → ProcessingItem} {l : List ProcessingItem}
    (hy : y ∈ applyIf id0 f l) :
    ∃ x ∈ l, y = if x.id = id0 then f x else x := by
  unfold applyIf at hy
  rcases List.mem_map.mp hy with ⟨x, hx, hxy⟩
  exact ⟨x, hx, hxy.symm⟩

theorem success_form {y : ProcessingItem} {id0 u : String} {items : List ProcessingItem}
    (hy : y ∈ updSuccess id0 u (updLoading id0 items)) (hid : y.id = id0) :
    y.status = Status.success ∧ y.errorMessage = none ∧ y.audioUrl = some u := by
  unfold updSuccess at hy
  rcases mem_applyIf_elim hy with ⟨x1, hx1, hy1⟩
  by_cases h1 : x1.id = id0
  · unfold updLoading at hx1
    rcases mem_applyIf_elim hx1 with ⟨x0, _, hx0⟩
    by_cases h0 : x0.id = id0
    · subst hy1
      subst hx0
      simp [h1, h0]
    · exfalso
      apply h0
      rw [show x1 = x0 by rw [hx0]; simp [h0]] at h1
      exact h1
  · exfalso
    apply h1
    rw [show y = x1 by rw [hy1]; simp [h1]] at hid
    exact hid

theorem error_form {y : ProcessingItem} {id0 msg : String} {items : List ProcessingItem}
    (hy : y ∈ updError id0 msg (updLoading id0 items)) (hid : y.id = id0) :
    y.status = Status.error ∧ y.errorMessage = some msg := by
  unfold updError at hy
  rcases mem_applyIf_elim hy with ⟨x1, hx1, hy1⟩
  by_cases h1 : x1.id = id0
  · subst hy1
    simp [h1]
  · exfalso
    apply h1
    rw [show y = x1 by rw [hy1]; simp [h1]] at hid
    exact hid

theorem updLoading_map_id (id0 : String) (l : List ProcessingItem) :
    (updLoading id0 l).map (fun i => i.id) = l.map (fun i => i.id) :=
  applyIf_map_field _ _ _ _ (fun _ => rfl)

theorem updSuccess_map_id (id0 u : String) (l : List ProcessingItem) :
    (updSuccess id0 u l).map (fun i => i.id) = l.map (fun i => i.id) :=
  applyIf_map_field _ _ _ _ (fun _ => rfl)

theorem updError_map_id (id0 msg : String) (l : List ProcessingItem) :
    (updError id0 msg l).map (fun i => i.id) = l.map (fun i => i.id) :=
  applyIf_map_field _ _ _ _ (fun _ => rfl)

theorem processItems_map_id (synth : SynthAdapter) (todo : List ProcessingItem) :
    ∀ (items : List ProcessingItem) (reg : URLRegistry),
    ((processItems synth todo items reg).items).map (fun i => i.id) =
      items.map (fun i => i.id) := by
  induction todo with
  | nil =>
    intro items reg
    rfl
  | cons item rest ih =>
    intro items reg
    cases hs : synth item.row with
    | ok b =>
      simp only [processItems, hs]
      rw [ih, updSuccess_map_id, updLoading_map_id]
    | error msg =>
      simp only [processItems, hs]
      rw [ih, updError_map_id, updLoading_map_id]

theorem processItems_trace (synth : SynthAdapter) (todo : List ProcessingItem) :
    ∀ (items : List ProcessingItem) (reg : URLRegistry),
    (processItems synth todo items reg).trace = todo.map (fun i => i.id) := by
  induction todo with
  | nil =>
    intro items reg
    rfl
  | cons item rest ih =>
    intro items reg
    cases hs : synth item.row with
    | ok b =>
      simp only [processItems, hs, List.map_cons]
      rw [ih]
    | error msg =>
      simp only [processItems, hs, List.map_cons]
      rw [ih]

theorem processItems_registry (synth : SynthAdapter) (todo : List ProcessingItem) :
    ∀ (items : List ProcessingItem) (reg : URLRegistry),
    ∃ extra : List String,
      (processItems synth todo items reg).registry.live = reg.live ++ extra ∧
      extra.length ≤ todo.length := by
  induction todo with
  | nil =>
    intro items reg
    exact ⟨[], by simp [processItems], by simp⟩
  | cons item rest ih =>
    intro items reg
    cases hs : synth item.row with
    | ok b =>
      rcases ih (updSuccess item.id (createObjectURL reg).1 (updLoading item.id items))
          (createObjectURL reg).2 with ⟨extra, hlive, hlen⟩
      refine ⟨("blob:" ++ Nat.repr reg.nextId) :: extra, ?_, ?_⟩
      · simp only [processItems, hs]
        rw [hlive]
        simp [createObjectURL]
      · simpa using Nat.succ_le_succ hlen
    | error msg =>
      rcases ih (updError item.id msg (updLoading item.id items)) reg with ⟨extra, hlive, hlen⟩
      refine ⟨extra, ?_, ?_⟩
      · simp only [processItems, hs]
        exact hlive
      · exact Nat.le_trans hlen (Nat.le_succ _)

theorem processItems_frame (synth : SynthAdapter) (todo : List ProcessingItem) :
    ∀ (items : List ProcessingItem) (reg : URLRegistry) (y : ProcessingItem),
    y ∈ (processItems synth todo items reg).items →
    y.id ∉ todo.map (fun i => i.id) → y ∈ items := by
  induction todo with
  | nil =>
    intro items reg y hy _
    simpa [processItems] using hy
  | cons item rest ih =>
    intro items reg y hy hnot
    have hne : y.id ≠ item.id := by
      intro h
      exact hnot (by simp [h])
    have hnr : y.id ∉ rest.map (fun i => i.id) := by
      intro h
      exact hnot (by simp [h])
    cases hs : synth item.row with
    | ok b =>
      simp only [processItems, hs] at hy
      have hy1 := ih _ _ y hy hnr
      exact mem_applyIf_ne (mem_applyIf_ne hy1 hne (fun _ => rfl)) hne (fun _ => rfl)
    | error msg =>
      simp only [processItems, hs] at hy
      have hy1 := ih _ _ y hy hnr
      exact mem_applyIf_ne (mem_applyIf_ne hy1 hne (fun _ => rfl)) hne (fun _ => rfl)

theorem processItems_frame_rev (synth : SynthAdapter) (todo : List ProcessingItem) :
    ∀ (items : List ProcessingItem) (reg : URLRegistry) (x : ProcessingItem),
    x ∈ items → x.id ∉ todo.map (fun i => i.id) →
    x ∈ (processItems synth todo items reg).items := by
  induction todo with
  | nil =>
    intro items reg x hx _
    simpa [processItems] using hx
  | cons item rest ih =>
    intro items reg x hx hnot
    have hne : x.id ≠ item.id := by
      intro h
      exact hnot (by simp [h])
    have hnr : x.id ∉ rest.map (fun i => i.id) := by
      intro h
      exact hnot (by simp [h])
    cases hs : synth item.row with
    | ok b =>
      simp only [processItems, hs]
      exact ih _ _ x (mem_applyIf_of_ne (mem_applyIf_of_ne hx hne) hne) hnr
    | error msg =>
      simp only [processItems, hs]
      exact ih _ _ x (mem_applyIf_of_ne (mem_applyIf_of_ne hx hne) hne) hnr

theorem mem_selectedItems {i : ProcessingItem} {items : List ProcessingItem} :
    i ∈ selectedItems items ↔
      i ∈ items ∧ (i.status = Status.idle ∨ i.status = Status.error) := by
  simp [selectedItems, List.mem_filter]

theorem processItems_done (synth : SynthAdapter) (S : List String)
    (todo : List ProcessingItem) :
    ∀ (items : List ProcessingItem) (reg : URLRegistry),
    (∀ x ∈ items, x.id ∈ S →
      (x.id ∈ todo.map (fun i => i.id) ∨
        x.status = Status.success ∨
        (x.status = Status.error ∧ ∃ m, x.errorMessage = some m))) →
    ∀ y ∈ (processItems synth todo items reg).items, y.id ∈ S →
      y.status = Status.success ∨
      (y.status = Status.error ∧ ∃ m, y.errorMessage = some m) := by
  induction todo with
  | nil =>
    intro items reg hinv y hy hyS
    have hy0 : y ∈ items := by simpa [processItems] using hy
    rcases hinv y hy0 hyS with h | h
    · simp at h
    · exact h
  | cons item rest ih =>
    intro items reg hinv y hy hyS
    cases hs : synth item.row with
    | ok b =>
      simp only [processItems, hs] at hy
      refine ih _ _ ?_ y hy hyS
      intro x hx hxS
      by_cases hxid : x.id = item.id
      · exact Or.inr (Or.inl (success_form hx hxid).1)
      · have hx0 : x ∈ items :=
          mem_applyIf_ne (mem_applyIf_ne hx hxid (fun _ => rfl)) hxid (fun _ => rfl)
        rcases hinv x hx0 hxS with h | h
        · rw [List.map_cons] at h
          rcases List.mem_cons.mp h with h1 | h1
          · exact absurd h1 hxid
          · exact Or.inl h1
        · exact Or.inr h
    | error msg =>
      simp only [processItems, hs] at hy
      refine ih _ _ ?_ y hy hyS
      intro x hx hxS
      by_cases hxid : x.id = item.id
      · rcases error_form hx hxid with ⟨h1, h2⟩
        exact Or.inr (Or.inr ⟨h1, msg, h2⟩)
      · have hx0 : x ∈ items :=
          mem_applyIf_ne (mem_applyIf_ne hx hxid (fun _ => rfl)) hxid (fun _ => rfl)
        rcases hinv x hx0 hxS with h | h
        · rw [List.map_cons] at h
          rcases List.mem_cons.mp h with h1 | h1
          · exact absurd h1 hxid
          · exact Or.inl h1
        · exact Or.inr h

theorem processItems_retry (synth : SynthAdapter) (todo : List ProcessingItem) :
    ∀ (items : List ProcessingItem) (reg : URLRegistry) (t : ProcessingItem) (b : List Nat),
    t ∈ todo → (todo.map (fun i => i.id)).Nodup → synth t.row = Except.ok b →
    ∀ y ∈ (processItems synth todo items reg).items, y.id = t.id →
      y.status = Status.success ∧ y.errorMessage = none ∧ ∃ u, y.audioUrl = some u := by
  induction todo with
  | nil =>
    intro items reg t b ht
    exact absurd ht (List.not_mem_nil t)
  | cons item rest ih =>
    intro items reg t b ht hnd hok y hy hid
    rw [List.map_cons] at hnd
    have hnd1 := List.nodup_cons.mp hnd
    rcases List.mem_cons.mp ht with rfl | htr
    · simp only [processItems, hok] at hy
      have hnotin : y.id ∉ rest.map (fun i => i.id) := by
        rw [hid]
        exact hnd1.1
      have hy1 := processItems_frame synth rest _ _ y hy hnotin
      rcases success_form hy1 hid with ⟨h1, h2, h3⟩
      exact ⟨h1, h2, _, h3⟩
    · cases hs : synth item.row with
      | ok b2 =>
        simp only [processItems, hs] at hy
        exact ih _ _ t b htr hnd1.2 hok y hy hid
      | error msg =>
        simp only [processItems, hs] at hy
        exact ih _ _ t b htr hnd1.2 hok y hy hid

/-! ## Helper lemmas about the hex decoder -/

theorem set_take_succ (arr : List Nat) (k v : Nat) (hk : k < arr.length) :
    (arr.set k v).take (k + 1) = arr.take k ++ [v] := by
  rw [List.set_eq_take_cons_drop v hk, List.take_append_eq_append_take]
  have hlen : (arr.take k).length = k := by
    simp [List.length_take]
    omega
  rw [List.take_of_length_le (by omega), hlen]
  simp

theorem hexToBytesLoop_eq :
    ∀ (chars : List Char) (arr : List Nat) (k : Nat),
    arr.length = k + chars.length / 2 →
    hexToBytesLoop arr k chars = arr.take k ++ hexPairs chars
  | [], arr, k, h => by
    simp only [List.length_nil] at h
    simp only [hexToBytesLoop, hexPairs]
    rw [List.take_of_length_le (by omega)]
    simp
  | [c], arr, k, h => by
    simp only [List.length_cons, List.length_nil] at h
    simp only [hexToBytesLoop, hexPairs]
    rw [List.set_eq_of_length_le (by omega), List.take_of_length_le (by omega)]
    simp
  | c1 :: c2 :: rest, arr, k, h => by
    simp only [List.length_cons] at h
    have hk : k < arr.length := by omega
    simp only [hexToBytesLoop, hexPairs]
    rw [hexToBytesLoop_eq rest _ (k + 1) (by rw [List.length_set]; omega)]
    rw [set_take_succ arr k _ hk]
    simp

theorem hexToBytes_eq_hexPairs (hex : String) : hexToBytes hex = hexPairs hex.data := by
  unfold hexToBytes
  rw [hexToBytesLoop_eq hex.data _ 0 (by rw [List.length_replicate, Nat.zero_add]; rfl)]
  simp

theorem hexPairs_length :
    ∀ chars : List Char, (hexPairs chars).length = chars.length / 2
  | [] => rfl
  | [c] => by
    simp only [hexPairs, List.length_cons, List.length_nil]
  | c1 :: c2 :: rest => by
    simp only [hexPairs, List.length_cons, hexPairs_length rest]
    omega

theorem jsToUint8_lt (o : Option Int) : jsToUint8 o < 256 := by
  cases o with
  | none => decide
  | some m =>
    simp only [jsToUint8]
    have h1 : m % 256 < 256 := Int.emod_lt_of_pos m (by decide)
    have h0 : 0 ≤ m % 256 := Int.emod_nonneg m (by decide)
    omega

theorem hexPairs_lt :
    ∀ chars : List Char, ∀ b ∈ hexPairs chars, b < 256
  | [] => by simp [hexPairs]
  | [c] => by simp [hexPairs]
  | c1 :: c2 :: rest => by
    simp only [hexPairs]
    intro b hb
    rcases List.mem_cons.mp hb with h | h
    · rw [h]
      exact jsToUint8_lt _
    · exact hexPairs_lt rest b h

set_option maxRecDepth 8192 in
theorem decode_encode_byte :
    ∀ b, b < 256 →
    jsToUint8 (jsParseIntHex [Nat.digitChar (b / 16), Nat.digitChar (b % 16)]) = b := by
  decide

theorem hexPairs_encodeHexChars :
    ∀ bs : List Nat, (∀ b ∈ bs, b < 256) → hexPairs (encodeHexChars bs) = bs
  | [], _ => rfl
  | b :: rest, h => by
    simp only [encodeHexChars, hexPairs]
    rw [decode_encode_byte b (h b (List.mem_cons_self b rest))]
    rw [hexPairs_encodeHexChars rest (fun x hx => h x (List.mem_cons_of_mem b hx))]

/-! ## Shared concrete scenario -/

/-- A script row of the demo scenario. -/
def demoRow (sn tx : String) : ScriptRow :=
  { shotNumber := sn, character := "Neo", voice_id := "v1", text := tx, emotion := none }

/-- Batch of 5 freshly ingested items. -/
def demoItems : List ProcessingItem :=
  [{ id := "item1", row := demoRow "001" "line1", status := Status.idle },
   { id := "item2", row := demoRow "002" "line2", status := Status.idle },
   { id := "item3", row := demoRow "003" "line3", status := Status.idle },
   { id := "item4", row := demoRow "004" "line4", status := Status.idle },
   { id := "item5", row := demoRow "005" "line5", status := Status.idle }]

/-- Adapter stub failing exactly the rows of items 2 and 4. -/
def demoSynth : SynthAdapter := fun r =>
  if r.text = "line2" || r.text = "line4" then Except.error "Minimax Error: rate limited"
  else Except.ok [1]

/-- Adapter stub that always succeeds. -/
def demoSynthOk : SynthAdapter := fun _ => Except.ok [9]

/-- First run over the 5-item batch with failures at items 2 and 4. -/
def demoRun1 : BatchResult :=
  processBatch "key" "group" demoSynth demoItems { nextId := 0, live := [] }
    { current := 0, total := 0 }

/-- Second run over the same batch with the same failing adapter. -/
def demoRun2 : BatchResult :=
  processBatch "key" "group" demoSynth demoRun1.items demoRun1.registry demoRun1.progress

/-- Second run over the same batch with an adapter that now succeeds. -/
def demoRun2ok : BatchResult :=
  processBatch "key" "group" demoSynthOk demoRun1.items demoRun1.registry demoRun1.progress

/-- Single-item batch for the resource-handle scenario. -/
def soloItems : List ProcessingItem :=
  [{ id := "solo", row := demoRow "001" "line1", status := Status.idle }]

/-- A successful run over the single-item batch. -/
def soloRun : BatchResult :=
  processBatch "key" "group" demoSynthOk soloItems { nextId := 0, live := [] }
    { current := 0, total := 0 }

/-! ## Claims -/

/-- C4 counterexample: the decoder does not fail on inputs that are not
contiguous 2-character hex pairs. Decoding the non-hex string zz yields
the byte 0 (parseInt gives NaN, coerced to 0 on the typed-array write),
and decoding the odd-length string abc yields the byte 171 with the
trailing character silently dropped; no DecodeError exists in the code. -/
theorem c4_counterexample :
    hexToBytes "zz" = [0] ∧ hexToBytes "abc" = [171] := by
  decide

/-- C4 (amended): the inline-audio decoder performs no validation and
never fails: for every input string it totally produces one byte below
256 per contiguous 2-character chunk (so length / 2 bytes), parsing each
chunk with JavaScript parseInt radix-16 semantics (a chunk with no
leading hex digit contributes 0 via NaN coercion) and silently dropping
a trailing lone character. -/
theorem c4_amended_decoder_total (s : String) :
    hexToBytes s = hexPairs s.data ∧
    (hexToBytes s).length = s.length / 2 ∧
    ∀ b ∈ hexToBytes s, b < 256 := by
  refine ⟨hexToBytes_eq_hexPairs s, ?_, ?_⟩
  · rw [hexToBytes_eq_hexPairs s, hexPairs_length]
    rfl
  · rw [hexToBytes_eq_hexPairs s]
    exact hexPairs_lt s.data

/-- C4 amended witness at a concrete input. -/
theorem c4_amended_witness :
    hexToBytes "ffzz" = hexPairs ['f', 'f', 'z', 'z'] ∧ (255 : Nat) < 256 :=
  ⟨(c4_amended_decoder_total "ffzz").1,
   (c4_amended_decoder_total "ffzz").2.2 255 (by decide)⟩

/-- C5: encoding any byte sequence as two lowercase hex digits per byte
and decoding with hexToBytes returns the original bytes; in particular
decoding 68656c6c6f yields the five ASCII bytes of hello. -/
theorem c5_hex_roundtrip :
    (∀ bs : List Nat, (∀ b ∈ bs, b < 256) → hexToBytes (encodeHex bs) = bs) ∧
    hexToBytes "68656c6c6f" = [104, 101, 108, 108, 111] := by
  constructor
  · intro bs h
    rw [hexToBytes_eq_hexPairs]
    exact hexPairs_encodeHexChars bs h
  · decide

/-- C5 witness at the hello bytes. -/
theorem c5_witness :
    hexToBytes (encodeHex [104, 101, 108, 108, 111]) = [104, 101, 108, 108, 111] :=
  c5_hex_roundtrip.1 [104, 101, 108, 108, 111] (by decide)

/-- C3: generateSpeech fails with the transport error carrying status and
statusText iff the transport status is non-success; otherwise with the
service error carrying the embedded status message iff the embedded
status code is non-zero; otherwise with the no-audio-data error iff
neither the inline hex string nor the remote URL is present (truthy);
and it returns an audio resource (inline bytes or the remote fetch) in
exactly the remaining cases. -/
theorem c3_response_classification (r : TransportResponse) :
    (r.ok = false →
      generateSpeechOutcome r = SpeechOutcome.transportError r.status r.statusText) ∧
    ((∃ s t, generateSpeechOutcome r = SpeechOutcome.transportError s t) ↔ r.ok = false) ∧
    (r.ok = true → r.json.base_resp.status_code ≠ 0 →
      generateSpeechOutcome r = SpeechOutcome.serviceError r.json.base_resp.status_msg) ∧
    ((∃ m, generateSpeechOutcome r = SpeechOutcome.serviceError m) ↔
      (r.ok = true ∧ r.json.base_resp.status_code ≠ 0)) ∧
    (generateSpeechOutcome r = SpeechOutcome.noAudioData ↔
      (r.ok = true ∧ r.json.base_resp.status_code = 0 ∧
        audioPresent r = false ∧ audioFilePresent r = false)) ∧
    (((∃ b, generateSpeechOutcome r = SpeechOutcome.inlineAudio b) ∨
      (∃ u, generateSpeechOutcome r = SpeechOutcome.remoteAudio u)) ↔
      (r.ok = true ∧ r.json.base_resp.status_code = 0 ∧
        (audioPresent r = true ∨ audioFilePresent r = true))) := by
  obtain ⟨ok, st, stext, ⟨⟨code, smsg⟩, dta⟩⟩ := r
  cases ok
  · simp [generateSpeechOutcome, audioPresent, audioFilePresent]
  · by_cases hc : code = 0
    · subst hc
      cases dta with
      | none =>
        simp [generateSpeechOutcome, audioPresent, audioFilePresent]
      | some d =>
        by_cases ha : d.audio = ""
        · cases hf : d.audio_file with
          | none =>
            simp [generateSpeechOutcome, audioPresent, audioFilePresent, ha, hf]
          | some u =>
            by_cases hu : u = "" <;>
              simp [generateSpeechOutcome, audioPresent, audioFilePresent, ha, hf, hu]
        · simp [generateSpeechOutcome, audioPresent, audioFilePresent, ha]
    · simp [generateSpeechOutcome, audioPresent, audioFilePresent, hc]

/-- C3 witness at a concrete failing transport response. -/
theorem c3_witness :
    generateSpeechOutcome
      { ok := false, status := 500, statusText := "Internal Server Error"
        json := { base_resp := { status_code := 0, status_msg := "" }, data := none } } =
      SpeechOutcome.transportError 500 "Internal Server Error" :=
  (c3_response_classification _).1 rfl

/-- C10: when the embedded status is success and the inline audio field is
the empty string, the adapter never produces an inline audio resource:
the empty string falls through to the remote-URL shape when that is
present (truthy), and otherwise to the no-audio-data error. -/
theorem c10_empty_audio_falls_through (r : TransportResponse) (d : RespData)
    (hok : r.ok = true) (hcode : r.json.base_resp.status_code = 0)
    (hd : r.json.data = some d) (ha : d.audio = "") :
    (∀ b, generateSpeechOutcome r ≠ SpeechOutcome.inlineAudio b) ∧
    (∀ u, d.audio_file = some u → u ≠ "" →
      generateSpeechOutcome r = SpeechOutcome.remoteAudio u) ∧
    ((d.audio_file = none ∨ d.audio_file = some "") →
      generateSpeechOutcome r = SpeechOutcome.noAudioData) := by
  refine ⟨?_, ?_, ?_⟩
  · intro b
    cases hf : d.audio_file with
    | none => simp [generateSpeechOutcome, hok, hcode, hd, ha, hf]
    | some u =>
      by_cases hu : u = "" <;> simp [generateSpeechOutcome, hok, hcode, hd, ha, hf, hu]
  · intro u hf hu
    simp [generateSpeechOutcome, hok, hcode, hd, ha, hf, hu]
  · intro hf
    rcases hf with hf | hf <;> simp [generateSpeechOutcome, hok, hcode, hd, ha, hf]

/-- C10 witness: empty inline audio with a remote URL present. -/
theorem c10_witness :
    generateSpeechOutcome
      { ok := true, status := 200, statusText := "OK"
        json := { base_resp := { status_code := 0, status_msg := "" }
                  data := some { audio := "", audio_file := some "u1", status := 2 } } } =
      SpeechOutcome.remoteAudio "u1" :=
  (c10_empty_audio_falls_through _ _ rfl rfl rfl rfl).2.1 "u1" rfl (by decide)

theorem filter_partition_length {α : Type} (p : α → Bool) (l : List α) :
    (l.filter p).length + (l.filter fun x => !(p x)).length = l.length := by
  induction l with
  | nil => rfl
  | cons a rest ih =>
    cases hp : p a <;> simp [List.filter_cons, hp] <;> omega

/-- C6: ingestion trims every field and accepts a record iff Character,
voice_id and text are non-empty after trimming; Shot Number and emotion
never affect acceptance; the accepted list is exactly the filtered map of
the input (no partial items), and accepted plus rejected counts equal the
input count. -/
theorem c6_ingestion_validation (rows : List RawRow) (r : RawRow) (sn em : Option String) :
    (acceptRow (mapRow r) = true ↔
      ((∃ s, r.character = some s ∧ jsTrim s ≠ "") ∧
       (∃ s, r.voice_id = some s ∧ jsTrim s ≠ "") ∧
       (∃ s, r.text = some s ∧ jsTrim s ≠ ""))) ∧
    (acceptRow (mapRow { r with shotNumber := sn, emotion := em }) =
      acceptRow (mapRow r)) ∧
    (parseCSVRows rows = (rows.filter fun x => acceptRow (mapRow x)).map mapRow) ∧
    ((parseCSVRows rows).length +
      (rows.filter fun x => !(acceptRow (mapRow x))).length = rows.length) := by
  refine ⟨?_, rfl, ?_, ?_⟩
  · obtain ⟨sn0, ch, vo, tx, em0⟩ := r
    cases ch <;> cases vo <;> cases tx <;>
      simp [acceptRow, mapRow, truthyStr, and_comm, and_left_comm]
  · unfold parseCSVRows
    rw [List.filter_map]
    rfl
  · unfold parseCSVRows
    rw [List.filter_map]
    simp only [List.length_map]
    exact filter_partition_length _ rows

/-- C6 witness: a record missing voice_id is rejected even with Shot
Number present; counts add up on a concrete mixed input. -/
theorem c6_witness :
    (acceptRow (mapRow ⟨some "001", some "Neo", some "v1", some " Hello ", none⟩) = true) ∧
    (parseCSVRows
        [⟨some "001", some "Neo", some "v1", some "Hello", none⟩,
         ⟨none, some " ", some "v1", some "Hello", none⟩]).length + 1 = 2 := by
  constructor
  · exact (c6_ingestion_validation []
      ⟨some "001", some "Neo", some "v1", some " Hello ", none⟩ none none).1.mpr
      ⟨⟨"Neo", rfl, by decide⟩, ⟨"v1", rfl, by decide⟩, ⟨" Hello ", rfl, by decide⟩⟩
  · decide

/-- Unfolding of processBatch when credentials are present. -/
theorem processBatch_run (ak g : String) (synth : SynthAdapter)
    (items : List ProcessingItem) (reg : URLRegistry) (prog : Progress)
    (hak : ak ≠ "") (hg : g ≠ "") :
    processBatch ak g synth items reg prog =
      { items := (processItems synth (selectedItems items) items reg).items
        registry := (processItems synth (selectedItems items) items reg).registry
        progress := { current := (processItems synth (selectedItems items) items reg).trace.length
                      total := (selectedItems items).length }
        trace := (processItems synth (selectedItems items) items reg).trace
        batchError := none } := by
  unfold processBatch
  rw [if_neg (not_or.mpr ⟨hak, hg⟩)]

/-- Unfolding of processBatch when a credential is missing. -/
theorem processBatch_guard (ak g : String) (synth : SynthAdapter)
    (items : List ProcessingItem) (reg : URLRegistry) (prog : Progress)
    (h : ak = "" ∨ g = "") :
    processBatch ak g synth items reg prog =
      { items := items, registry := reg, progress := prog, trace := []
        batchError := some "Please provide API Key and Group ID." } := by
  unfold processBatch
  rw [if_pos h]

/-- The failed item 2 as left by the first demo run. -/
def demoFailedItem2 : ProcessingItem :=
  { id := "item2", row := demoRow "002" "line2", status := Status.error
    audioUrl := none, errorMessage := some "Minimax Error: rate limited" }

/-- Item 2 as left by the second demo run with a succeeding adapter. -/
def demoSuccItem2 : ProcessingItem :=
  { id := "item2", row := demoRow "002" "line2", status := Status.success
    audioUrl := some "blob:3", errorMessage := none }

/-- All-succeeded single-item batch for idempotence witnesses. -/
def allSuccItems : List ProcessingItem :=
  [{ id := "a1", row := demoRow "001" "line1", status := Status.success
     audioUrl := some "blob:9", errorMessage := none }]

/-- C1: for every run with credentials present, each item the scheduler
selected ends the run with status exactly success or error (never idle or
loading), an error status always carries a human-readable message, and the
run is a total function of the adapter outcomes: every per-item failure is
consumed inside the loop (the adapter is an Except value and processBatch
returns normally for every input), so no exception reaches the caller and
no later selected item is skipped. -/
theorem c1_scheduler_settles (ak g : String) (synth : SynthAdapter)
    (items : List ProcessingItem) (reg : URLRegistry) (prog : Progress)
    (hak : ak ≠ "") (hg : g ≠ "") :
    ∀ y ∈ (processBatch ak g synth items reg prog).items,
      y.id ∈ (selectedItems items).map (fun i => i.id) →
      (y.status = Status.success ∨ y.status = Status.error) ∧
      (y.status = Status.error → ∃ m, y.errorMessage = some m) ∧
      y.status ≠ Status.idle ∧ y.status ≠ Status.loading := by
  intro y hy hyS
  rw [processBatch_run ak g synth items reg prog hak hg] at hy
  have hdone := processItems_done synth ((selectedItems items).map (fun i => i.id))
    (selectedItems items) items reg (fun x _ hxS => Or.inl hxS) y hy hyS
  rcases hdone with h | ⟨h, m, hm⟩
  · refine ⟨Or.inl h, ?_, ?_, ?_⟩
    · intro he
      rw [h] at he
      exact Status.noConfusion he
    · rw [h]
      decide
    · rw [h]
      decide
  · refine ⟨Or.inr h, fun _ => ⟨m, hm⟩, ?_, ?_⟩
    · rw [h]
      decide
    · rw [h]
      decide

/-- C1 witness: the failed item 2 of the demo run was selected and ends
settled. -/
theorem c1_witness :
    (demoFailedItem2.status = Status.success ∨ demoFailedItem2.status = Status.error) ∧
    (demoFailedItem2.status = Status.error → ∃ m, demoFailedItem2.errorMessage = some m) ∧
    demoFailedItem2.status ≠ Status.idle ∧ demoFailedItem2.status ≠ Status.loading :=
  c1_scheduler_settles "key" "group" demoSynth demoItems
    { nextId := 0, live := [] } { current := 0, total := 0 }
    (by decide) (by decide) demoFailedItem2 (by decide) (by decide)

/-- C2: the scheduler selects exactly the items whose status is idle
(pending) or error (failed), and processes exactly that selection, one
item at a time, in original row order (the trace lists the processed ids
in processing order); in the 5-item demo scenario where items 2 and 4
fail, the first run reports 5 total with 3 succeeded and 2 failed and a
second run selects and processes exactly items 2 and 4, in that order. -/
theorem c2_selection_and_order :
    (∀ (ak g : String) (synth : SynthAdapter) (items : List ProcessingItem)
        (reg : URLRegistry) (prog : Progress), ak ≠ "" → g ≠ "" →
      (processBatch ak g synth items reg prog).trace =
        (selectedItems items).map (fun i => i.id)) ∧
    (∀ (items : List ProcessingItem) (i : ProcessingItem),
      i ∈ selectedItems items ↔
        i ∈ items ∧ (i.status = Status.idle ∨ i.status = Status.error)) ∧
    stats demoRun1.items = { total := 5, success := 3, error := 2, pending := 0 } ∧
    demoRun1.trace = ["item1", "item2", "item3", "item4", "item5"] ∧
    demoRun2.trace = ["item2", "item4"] := by
  refine ⟨?_, ?_, by decide, by decide, by decide⟩
  · intro ak g synth items reg prog hak hg
    rw [processBatch_run ak g synth items reg prog hak hg]
    exact processItems_trace synth (selectedItems items) items reg
  · intro items i
    exact mem_selectedItems

/-- C2 witness: the trace equation at the demo run. -/
theorem c2_witness :
    (processBatch "key" "group" demoSynth demoItems { nextId := 0, live := [] }
      { current := 0, total := 0 }).trace =
      (selectedItems demoItems).map (fun i => i.id) :=
  c2_selection_and_order.1 "key" "group" demoSynth demoItems
    { nextId := 0, live := [] } { current := 0, total := 0 } (by decide) (by decide)

/-- C7: a failed item with an attached error message that is re-selected
by a later run in which the adapter succeeds on its row ends that run
with status success, an attached audio resource, and no error message. -/
theorem c7_retry_convergence (ak g : String) (synth : SynthAdapter)
    (items : List ProcessingItem) (reg : URLRegistry) (prog : Progress)
    (x : ProcessingItem) (b : List Nat)
    (hak : ak ≠ "") (hg : g ≠ "") (hnd : (items.map (fun i => i.id)).Nodup)
    (hx : x ∈ items) (hxs : x.status = Status.error) (hok : synth x.row = Except.ok b) :
    (∃ y, y ∈ (processBatch ak g synth items reg prog).items ∧ y.id = x.id) ∧
    ∀ y ∈ (processBatch ak g synth items reg prog).items, y.id = x.id →
      y.status = Status.success ∧ (∃ u, y.audioUrl = some u) ∧ y.errorMessage = none := by
  rw [processBatch_run ak g synth items reg prog hak hg]
  constructor
  · have hid : x.id ∈
        ((processItems synth (selectedItems items) items reg).items).map (fun i => i.id) := by
      rw [processItems_map_id synth (selectedItems items) items reg]
      exact List.mem_map.mpr ⟨x, hx, rfl⟩
    rcases List.mem_map.mp hid with ⟨y, hy, hyid⟩
    exact ⟨y, hy, hyid⟩
  · intro y hy hid
    have hsel : x ∈ selectedItems items := mem_selectedItems.mpr ⟨hx, Or.inr hxs⟩
    have hsub : List.Sublist ((selectedItems items).map (fun i => i.id))
        (items.map (fun i => i.id)) :=
      (List.filter_sublist items).map _
    have hndsel : ((selectedItems items).map (fun i => i.id)).Nodup := hnd.sublist hsub
    have hret := processItems_retry synth (selectedItems items) items reg x b
      hsel hndsel hok y hy hid
    exact ⟨hret.1, hret.2.2, hret.2.1⟩

/-- C7 witness: item 2, failed in the first demo run, succeeds in the
second run with adapter demoSynthOk and ends success with a fresh handle
and no error message. -/
theorem c7_witness :
    demoSuccItem2.status = Status.success ∧
    (∃ u, demoSuccItem2.audioUrl = some u) ∧ demoSuccItem2.errorMessage = none :=
  (c7_retry_convergence "key" "group" demoSynthOk demoRun1.items demoRun1.registry
    demoRun1.progress demoFailedItem2 [9] (by decide) (by decide) (by decide)
    (by decide) (by decide) rfl).2 demoSuccItem2 (by decide) (by decide)

/-- C9: a run never modifies an item that is already succeeded at its
start (its full record is preserved, assuming the batch has no duplicate
generated ids), and a run over an all-succeeded batch selects the empty
subset and changes no item state and no registry state. -/
theorem c9_succeeded_untouched (ak g : String) (synth : SynthAdapter)
    (items : List ProcessingItem) (reg : URLRegistry) (prog : Progress)
    (hnd : (items.map (fun i => i.id)).Nodup) :
    (∀ x ∈ items, x.status = Status.success →
      x ∈ (processBatch ak g synth items reg prog).items ∧
      ∀ y ∈ (processBatch ak g synth items reg prog).items, y.id = x.id → y = x) ∧
    ((∀ x ∈ items, x.status = Status.success) →
      (processBatch ak g synth items reg prog).items = items ∧
      (processBatch ak g synth items reg prog).registry = reg ∧
      selectedItems items = [] ∧
      (processBatch ak g synth items reg prog).trace = []) := by
  have hinj := List.inj_on_of_nodup_map hnd
  by_cases hcred : ak = "" ∨ g = ""
  · rw [processBatch_guard ak g synth items reg prog hcred]
    constructor
    · intro x hx _
      exact ⟨hx, fun y hy hid => hinj hy hx hid⟩
    · intro hall
      refine ⟨rfl, rfl, ?_, rfl⟩
      unfold selectedItems
      apply List.filter_eq_nil_iff.mpr
      intro a ha
      simp [hall a ha]
  · rcases not_or.mp hcred with ⟨hak, hg⟩
    rw [processBatch_run ak g synth items reg prog hak hg]
    constructor
    · intro x hx hxs
      have hnotsel : x.id ∉ (selectedItems items).map (fun i => i.id) := by
        intro hmem
        rcases List.mem_map.mp hmem with ⟨z, hz, hzid⟩
        rcases mem_selectedItems.mp hz with ⟨hz1, hz2⟩
        have hzx : z = x := hinj hz1 hx hzid
        rcases hz2 with h | h <;> rw [hzx, hxs] at h <;> exact Status.noConfusion h
      refine ⟨processItems_frame_rev synth (selectedItems items) items reg x hx hnotsel, ?_⟩
      intro y hy hid
      have hy0 : y ∈ items := processItems_frame synth (selectedItems items) items reg y hy
        (by rw [hid]; exact hnotsel)
      exact hinj hy0 hx hid
    · intro hall
      have hsel : selectedItems items = [] := by
        unfold selectedItems
        apply List.filter_eq_nil_iff.mpr
        intro a ha
        simp [hall a ha]
      rw [hsel]
      exact ⟨rfl, rfl, rfl, rfl⟩

/-- C9 witness: a run over an all-succeeded batch leaves items, registry
and selection untouched. -/
theorem c9_witness :
    (processBatch "key" "group" demoSynthOk allSuccItems
        { nextId := 10, live := ["blob:9"] } { current := 1, total := 1 }).items =
      allSuccItems ∧
    selectedItems allSuccItems = [] :=
  ⟨((c9_succeeded_untouched "key" "group" demoSynthOk allSuccItems
      { nextId := 10, live := ["blob:9"] } { current := 1, total := 1 }
      (by decide)).2 (by decide)).1,
   ((c9_succeeded_untouched "key" "group" demoSynthOk allSuccItems
      { nextId := 10, live := ["blob:9"] } { current := 1, total := 1 }
      (by decide)).2 (by decide)).2.2.1⟩

/-- C8 counterexample: a successful run over one item creates a live
object URL; clearing the batch removes the items but the URL stays live:
nothing reclaims the underlying storage, contradicting the claim that
clearing the batch releases every handle. -/
theorem c8_counterexample :
    soloRun.items =
      [{ id := "solo", row := demoRow "001" "line1", status := Status.success
         audioUrl := some "blob:0", errorMessage := none }] ∧
    clearBatch { items := soloRun.items, registry := soloRun.registry } =
      { items := [], registry := { nextId := 1, live := ["blob:0"] } } ∧
    (clearBatch { items := soloRun.items, registry := soloRun.registry }).registry.live ≠
      [] := by
  decide

/-- C8 (amended): each run creates at most one handle per selected item
and never revokes any: the registry only grows by the created URLs; a
succeeded item is never re-selected, so its handle is never replaced; and
clearing the batch drops the item list while leaving the registry, hence
every created URL, untouched. -/
theorem c8_amended_no_release (ak g : String) (synth : SynthAdapter)
    (items : List ProcessingItem) (reg : URLRegistry) (prog : Progress) :
    (∃ extra : List String,
      (processBatch ak g synth items reg prog).registry.live = reg.live ++ extra ∧
      extra.length ≤ (selectedItems items).length) ∧
    (∀ i ∈ items, i.status = Status.success → i ∉ selectedItems items) ∧
    (∀ st : AppState, (clearBatch st).registry = st.registry ∧ (clearBatch st).items = []) := by
  refine ⟨?_, ?_, fun st => ⟨rfl, rfl⟩⟩
  · by_cases hcred : ak = "" ∨ g = ""
    · rw [processBatch_guard ak g synth items reg prog hcred]
      exact ⟨[], by simp, by simp⟩
    · rcases not_or.mp hcred with ⟨hak, hg⟩
      rw [processBatch_run ak g synth items reg prog hak hg]
      exact processItems_registry synth (selectedItems items) items reg
  · intro i hi hsucc hmem
    rcases (mem_selectedItems.mp hmem).2 with h | h <;> rw [hsucc] at h <;>
      exact Status.noConfusion h

/-- C8 amended witness: a succeeded item is not selected. -/
theorem c8_amended_witness :
    ({ id := "a1", row := demoRow "001" "line1", status := Status.success
       audioUrl := some "blob:9", errorMessage := none } : ProcessingItem) ∉
      selectedItems allSuccItems :=
  (c8_amended_no_release "key" "group" demoSynthOk allSuccItems
    { nextId := 0, live := [] } { current := 0, total := 0 }).2.1
    { id := "a1", row := demoRow "001" "line1", status := Status.success
      audioUrl := some "blob:9", errorMessage := none } (by decide) (by decide)

end MinimaxSpeech
